import Mathlib

/-!
# Verification of the DearPyGui callback/task dispatch core

Shallow embedding of `src/src/mvCallbackRegistry.h`: the concurrent FIFO
queue `mvQueue`, the reference-counted callback wrapper `mvCallbackWrapper`,
the named callback slot `mvCallbackPythonSlot`, and the submission entry
points `mvSubmitTask` / `mvSubmitCallback` of the dispatch registry.

Modelling choices:

* `PyObject*` pointers are modelled as `Option Nat` — `none` is `nullptr`,
  `some o` is a pointer to the external object with identity `o`.  The
  embedding environment's reference counts are a map `Nat → Int`
  (`Py_XINCREF` / `Py_XDECREF` are no-ops on `none`, otherwise bump the
  count of the pointed-to object).
* The linked-list queue of `mvQueue` keeps a chain of nodes from `m_head`
  to the dummy tail node; every node strictly before the dummy carries one
  element.  We represent the chain by the list of those carried elements,
  head of the list = node at `m_head`; the dummy tail node is implicit.
  `push` writes the value into the dummy and appends a fresh dummy, i.e.
  appends the value at the end of the element list; `pop_head` unlinks the
  head node; `m_head == m_tail` (emptiness) is `elems = []`.
* Mutexes and the condition variable order concurrent accesses; the
  functional model is the sequentially consistent behaviour of one
  interleaving, which is what the sequential claims quantify over.
* `std::future` handles are modelled by their validity: a future obtained
  from a `packaged_task` is `valid`, a default-constructed `{}` future
  (`return {};`) is `invalid`.
-/

set_option autoImplicit false

namespace MvDispatch

/-! ## mvQueue (mvCallbackRegistry.h lines 176–305) -/

/-- The element list of an `mvQueue<T>`: data carried by the node chain from
`m_head` up to (excluding) the dummy tail node. -/
structure mvQueue (T : Type) where
  elems : List T
  deriving Repr, DecidableEq

namespace mvQueue

/-- `mvQueue() : m_head(new node), m_tail(m_head.get())` — a single dummy
node, no elements. -/
def emptyQ {T : Type} : mvQueue T := ⟨[]⟩

/-- `empty()`: head lock, compare `m_head.get()` with `get_tail()`. -/
def empty {T : Type} (q : mvQueue T) : Bool :=
  q.elems.isEmpty

/-- `push(T value)`: store the value in the current dummy tail node and link
a fresh dummy after it — the value becomes the newest element. -/
def push {T : Type} (q : mvQueue T) (value : T) : mvQueue T :=
  ⟨q.elems ++ [value]⟩

/-- `pop_head()`: unlink the node at `m_head` and return it; its `data` is
the oldest element (`none` only if the dummy itself were popped, which the
callers' emptiness guards prevent). -/
def pop_head {T : Type} (q : mvQueue T) : Option T × mvQueue T :=
  match q.elems with
  | [] => (none, q)
  | x :: xs => (some x, ⟨xs⟩)

/-- `try_pop()`: under the head lock, if `m_head.get() == get_tail()` return
an empty `shared_ptr`, else `pop_head` and return its data. -/
def try_pop {T : Type} (q : mvQueue T) : Option T × mvQueue T :=
  if q.elems.isEmpty then (none, q) else q.pop_head

/-- `try_pop(T& value)`: under the head lock, if the queue is empty return
`false` leaving `value` untouched, else move the head element into `value`
and return `true`. -/
def try_pop_ref {T : Type} (q : mvQueue T) (value : T) : Bool × T × mvQueue T :=
  if q.elems.isEmpty then (false, value, q)
  else match q.elems with
    | [] => (false, value, q)
    | x :: xs => (true, x, ⟨xs⟩)

/-- `wait_and_pop()`: `wait_for_data` blocks the caller until
`m_head.get() != get_tail()` (the hypothesis `h`), then `pop_head` under the
head lock; the popped node's data is the oldest element. -/
def wait_and_pop {T : Type} (q : mvQueue T) (h : q.elems ≠ []) : T × mvQueue T :=
  (q.elems.head h, ⟨q.elems.tail⟩)

/-- Push each element of `vs` in order (oldest first). -/
def pushAll {T : Type} (q : mvQueue T) (vs : List T) : mvQueue T :=
  vs.foldl push q

/-- Pop `n` times with `try_pop`, collecting the returned elements in pop
order (dropping the `none` results of pops on an empty queue). -/
def drainTry {T : Type} : mvQueue T → Nat → List T × mvQueue T
  | q, 0 => ([], q)
  | q, n + 1 =>
    match q.try_pop with
    | (none, q') => let (vs, q'') := drainTry q' n; (vs, q'')
    | (some v, q') => let (vs, q'') := drainTry q' n; (v :: vs, q'')

end mvQueue

/-! ## Reference counts and observable events -/

/-- Observable events: an external callback invocation performed by
`mvRunCallback`, and the synchronous execution of a task closure. -/
inductive Event where
  | runCallback (callback : Nat) (sender : Nat)
      (appData : Option Nat) (userData : Option Nat)
  | taskRun (label : Nat)
  deriving Repr, DecidableEq

/-- The closure captured by value in `mvCallbackWrapper::run`'s lambda:
`[=]() { mvRunCallback(callback, sender, appData, userData); … }`.  The
`callback` field is non-null because `run` returns early on a null
callback before building the lambda. -/
structure CallClosure where
  callback : Nat
  sender : Nat
  appData : Option Nat
  userData : Option Nat
  deriving Repr, DecidableEq

/-- Validity of a returned `std::future`: a future obtained from a
`packaged_task` is `valid`; `return {};` yields an `invalid`
(default-constructed, empty) future. -/
inductive FutureState where
  | valid
  | invalid
  deriving Repr, DecidableEq

/-- The dispatch registry state together with the embedding environment's
reference counts and the log of observable events.  Mirrors the fields of
`mvCallbackRegistry` used by the claims (`maxNumberOfCalls` is the
compile-time constant below) plus `GContext->started` consulted by
`mvSubmitTask`. -/
structure RegState where
  callCount : Int
  calls : mvQueue CallClosure
  tasks : mvQueue Nat
  started : Bool
  refs : Nat → Int
  log : List Event

/-- `const i32 maxNumberOfCalls = 50;` -/
def maxNumberOfCalls : Int := 50

/-- `Py_XINCREF(p)`: no-op on `nullptr`, otherwise increment the reference
count of the pointed-to object. -/
def pyXIncref (p : Option Nat) (st : RegState) : RegState :=
  match p with
  | none => st
  | some o => { st with refs := fun x => if x = o then st.refs x + 1 else st.refs x }

/-- `Py_XDECREF(p)`: no-op on `nullptr`, otherwise decrement the reference
count of the pointed-to object. -/
def pyXDecref (p : Option Nat) (st : RegState) : RegState :=
  match p with
  | none => st
  | some o => { st with refs := fun x => if x = o then st.refs x - 1 else st.refs x }

/-- Modelled from the spec: `mvRunCallback` is declared in
`mvCallbackRegistry.h` (line 350) but defined outside `src/`.  Per §4.2 it
"calls the external callback with (sender, appData, userData)"; the
invocation is recorded as an event and, by itself, leaves the external
reference counts unchanged (the explicit `Py_XDECREF`s in the enqueued
lambda perform the releases). -/
def mvRunCallback (callback : Nat) (sender : Nat) (appData userData : Option Nat)
    (st : RegState) : RegState :=
  { st with log := st.log ++ [Event.runCallback callback sender appData userData] }

/-- Invoking the lambda enqueued by `mvCallbackWrapper::run`: run the
callback via `mvRunCallback`, then `Py_XDECREF` the captured callback,
userData and appData references. -/
def invokeCall (c : CallClosure) (st : RegState) : RegState :=
  pyXDecref c.appData
    (pyXDecref c.userData
      (pyXDecref (some c.callback)
        (mvRunCallback c.callback c.sender c.appData c.userData st)))

/-! ## Submission entry points (mvCallbackRegistry.h lines 355–389) -/

/-- `mvSubmitCallback(f)`: if `callCount > maxNumberOfCalls`, return an
empty future and drop `f`; otherwise increment `callCount`, wrap `f` in a
packaged task, push it onto `calls` and return its (valid) future. -/
def mvSubmitCallback (f : CallClosure) (st : RegState) : FutureState × RegState :=
  if st.callCount > maxNumberOfCalls then
    (FutureState.invalid, st)
  else
    (FutureState.valid,
      { st with callCount := st.callCount + 1, calls := st.calls.push f })

/-- Executing a task closure synchronously: its observable side effect is
recorded in the event log. -/
def runTask (label : Nat) (st : RegState) : RegState :=
  { st with log := st.log ++ [Event.taskRun label] }

/-- `mvSubmitTask(f)`: wrap `f` in a packaged task; if `GContext->started`,
push it onto `tasks`, otherwise execute it synchronously (`task()`); either
way return the task's (valid) future. -/
def mvSubmitTask (label : Nat) (st : RegState) : FutureState × RegState :=
  if st.started then
    (FutureState.valid, { st with tasks := st.tasks.push label })
  else
    (FutureState.valid, runTask label st)

/-- Modelled from the spec: `mvRunCallbacks` is declared in
`mvCallbackRegistry.h` (line 353) but defined outside `src/`.  Per §4.3 it
"drains `calls` completely" via non-blocking pop-and-invoke until empty,
"then resets `callCount` to 0" and returns whether any callback ran. -/
def mvRunCallbacks (st : RegState) : Bool × RegState :=
  let ran := !st.calls.elems.isEmpty
  let st' := st.calls.elems.foldl (fun s c => invokeCall c s)
      { st with calls := mvQueue.emptyQ }
  (ran, { st' with callCount := 0 })

/-- Submit a list of callbacks in order, collecting each returned future's
validity. -/
def submitMany : List CallClosure → RegState → List FutureState × RegState
  | [], st => ([], st)
  | f :: fs, st =>
    let r := mvSubmitCallback f st
    let rest := submitMany fs r.2
    (r.1 :: rest.1, rest.2)

/-! ## mvCallbackWrapper (mvCallbackRegistry.h lines 66–143) -/

/-- The two `PyObject*` members of `mvCallbackWrapper` (`none` = `nullptr`,
as default-initialized). -/
structure mvCallbackWrapper where
  callback : Option Nat
  userData : Option Nat
  deriving Repr, DecidableEq

namespace mvCallbackWrapper

/-- `mvCallbackWrapper(PyObject* callback, PyObject* userData, bool borrow)`:
store the two pointers; if borrowing, `Py_XINCREF` both (taking uses the
caller's references without incrementing). -/
def construct (callback userData : Option Nat) (borrow : Bool) (st : RegState) :
    mvCallbackWrapper × RegState :=
  (⟨callback, userData⟩,
    if borrow then pyXIncref userData (pyXIncref callback st) else st)

/-- The wrapper-stealing template constructor `mvCallbackWrapper(F&& f)`:
take `f`'s pointers and null `f`'s; no reference count is touched.  Returns
(new wrapper, source after the steal). -/
def stealConstruct (f : mvCallbackWrapper) :
    mvCallbackWrapper × mvCallbackWrapper :=
  (⟨f.callback, f.userData⟩, ⟨none, none⟩)

/-- `operator=(mvCallbackWrapper&& other)`: overwrite this wrapper's
pointers with `other`'s and null `other`'s; no reference count is touched
(the destination's previous pointers are dropped without release).  Returns
(destination after assignment, source after assignment, unchanged state). -/
def moveAssign (_dest other : mvCallbackWrapper) (st : RegState) :
    mvCallbackWrapper × mvCallbackWrapper × RegState :=
  (⟨other.callback, other.userData⟩, ⟨none, none⟩, st)

/-- `run(sender, appData, decrementAppData)`: return if the callback is
null; otherwise `Py_XINCREF` callback and userData (and appData when the
caller keeps its reference), and submit the invocation lambda through
`mvSubmitCallback`. -/
def run (w : mvCallbackWrapper) (sender : Nat) (appData : Option Nat)
    (decrementAppData : Bool) (st : RegState) : RegState :=
  match w.callback with
  | none => st
  | some cb =>
    let st := pyXIncref (some cb) st
    let st := pyXIncref w.userData st
    let st := if !decrementAppData then pyXIncref appData st else st
    (mvSubmitCallback ⟨cb, sender, appData, w.userData⟩ st).2

/-- `run_blocking(sender, appData, decrementAppData)`: return if the
callback is null; otherwise invoke `mvRunCallback` synchronously on the
calling thread (no queueing, no reference-count adjustment). -/
def run_blocking (w : mvCallbackWrapper) (sender : Nat) (appData : Option Nat)
    (_decrementAppData : Bool) (st : RegState) : RegState :=
  match w.callback with
  | none => st
  | some cb => mvRunCallback cb sender appData w.userData st

/-- `~mvCallbackWrapper()`: `Py_XDECREF` both held pointers. -/
def destruct (w : mvCallbackWrapper) (st : RegState) : RegState :=
  pyXDecref w.userData (pyXDecref w.callback st)

end mvCallbackWrapper

/-! ## mvCallbackPythonSlot (mvCallbackRegistry.h lines 149–171) -/

/-- A named slot holding one `mvCallbackWrapper`. -/
structure mvCallbackPythonSlot where
  pythonName : String
  callbackWrapper : mvCallbackWrapper

namespace mvCallbackPythonSlot

/-- `mvCallbackPythonSlot::run` delegates to `callbackWrapper.run`. -/
def run (s : mvCallbackPythonSlot) (sender : Nat) (appData : Option Nat)
    (decrementAppData : Bool) (st : RegState) : RegState :=
  s.callbackWrapper.run sender appData decrementAppData st

/-- `mvCallbackPythonSlot::run_blocking` delegates to
`callbackWrapper.run_blocking`. -/
def run_blocking (s : mvCallbackPythonSlot) (sender : Nat) (appData : Option Nat)
    (decrementAppData : Bool) (st : RegState) : RegState :=
  s.callbackWrapper.run_blocking sender appData decrementAppData st

end mvCallbackPythonSlot

/-- A fresh registry: `callCount = 0`, empty channels, not started, all
external reference counts zero, no events. -/
def freshState : RegState :=
  ⟨0, mvQueue.emptyQ, mvQueue.emptyQ, false, fun _ => 0, []⟩

/-! ## Harness compositions used by the claims -/

/-- The borrowing lifecycle of C3: construct a borrowing wrapper on
`(cb, ud)`, call `run` (default arguments: `appData = nullptr`,
`decrementAppData = true`), invoke the enqueued lambda, destroy the
wrapper. -/
def borrowLifecycle (cb ud sender : Nat) (st : RegState) : RegState :=
  let p := mvCallbackWrapper.construct (some cb) (some ud) true st
  let st2 := p.1.run sender none true p.2
  let st3 := invokeCall ⟨cb, sender, none, some ud⟩ st2
  p.1.destruct st3

/-- Operations applicable to a live `mvCallbackWrapper` after the move
assignment of C9: queue an invocation, invoke synchronously, drain the
`calls` channel (invoking every enqueued lambda), destroy the wrapper. -/
inductive WOp where
  | run (sender : Nat) (appData : Option Nat) (decrementAppData : Bool)
  | runBlocking (sender : Nat) (appData : Option Nat) (decrementAppData : Bool)
  | drain
  | destruct
  deriving Repr, DecidableEq

/-- One operation on the wrapper (or the registry drain). -/
def wstep (w : mvCallbackWrapper) (st : RegState) : WOp → RegState
  | WOp.run s a d => w.run s a d st
  | WOp.runBlocking s a d => w.run_blocking s a d st
  | WOp.drain => (mvRunCallbacks st).2
  | WOp.destruct => w.destruct st

/-- Run a sequence of operations against a fixed wrapper. -/
def runOps (w : mvCallbackWrapper) (ops : List WOp) (st : RegState) : RegState :=
  ops.foldl (wstep w) st

/-- The operation never passes object `o` as its `appData` argument (so any
release of `o` it performed could only come from a reference the wrapper
held). -/
def WOp.avoids (o : Nat) : WOp → Bool
  | WOp.run _ a _ => a ≠ some o
  | WOp.runBlocking _ a _ => a ≠ some o
  | WOp.drain => true
  | WOp.destruct => true

/-- No lambda pending on the `calls` channel captured a reference to `o`. -/
def callsAvoid (o : Nat) (st : RegState) : Prop :=
  ∀ c ∈ st.calls.elems, c.callback ≠ o ∧ c.userData ≠ some o ∧ c.appData ≠ some o

end MvDispatch

open MvDispatch

/-! ## Queue lemmas -/

theorem pushAll_elems {T : Type} (q : mvQueue T) (vs : List T) :
    (mvQueue.pushAll q vs).elems = q.elems ++ vs := by
  induction vs generalizing q with
  | nil => simp [mvQueue.pushAll]
  | cons v vs ih =>
    simp only [mvQueue.pushAll, List.foldl_cons] at *
    rw [ih]
    simp [mvQueue.push]

theorem drainTry_of_elems {T : Type} (vs : List T) (q : mvQueue T)
    (hq : q.elems = vs) :
    mvQueue.drainTry q vs.length = (vs, mvQueue.emptyQ) := by
  induction vs generalizing q with
  | nil =>
    simp [mvQueue.drainTry, mvQueue.emptyQ]
    cases q
    simp_all
  | cons v vs ih =>
    have hpop : q.try_pop = (some v, ⟨vs⟩) := by
      simp [mvQueue.try_pop, mvQueue.pop_head, hq]
    simp only [List.length_cons, mvQueue.drainTry, hpop]
    rw [ih ⟨vs⟩ rfl]

/-- C2: pushing N values into a queue and then popping N times returns them
in push order (FIFO), ending with an empty queue; and `wait_and_pop` on a
non-empty queue removes and returns the same oldest element as `try_pop`. -/
theorem mvQueue_fifo (vs : List Nat) (q : mvQueue Nat) (h : q.elems ≠ []) :
    mvQueue.drainTry (mvQueue.pushAll mvQueue.emptyQ vs) vs.length
        = (vs, mvQueue.emptyQ)
    ∧ (q.wait_and_pop h).1 = (q.try_pop).1.get!
    ∧ (q.wait_and_pop h).2 = (q.try_pop).2 := by
  refine ⟨?_, ?_, ?_⟩
  · exact drainTry_of_elems vs _ (by simp [pushAll_elems, mvQueue.emptyQ])
  · cases q with
    | mk elems =>
      cases elems with
      | nil => exact absurd rfl h
      | cons x xs => simp [mvQueue.wait_and_pop, mvQueue.try_pop, mvQueue.pop_head]
  · cases q with
    | mk elems =>
      cases elems with
      | nil => exact absurd rfl h
      | cons x xs => simp [mvQueue.wait_and_pop, mvQueue.try_pop, mvQueue.pop_head]

/-- Witness for C2 at a concrete push sequence and a concrete non-empty
queue. -/
theorem mvQueue_fifo_witness :
    mvQueue.drainTry (mvQueue.pushAll mvQueue.emptyQ [10, 20, 30]) 3
        = ([10, 20, 30], mvQueue.emptyQ)
    ∧ ((⟨[7, 8]⟩ : mvQueue Nat).wait_and_pop (by decide)).1
        = ((⟨[7, 8]⟩ : mvQueue Nat).try_pop).1.get! := by
  have h := mvQueue_fifo [10, 20, 30] ⟨[7, 8]⟩ (by decide)
  exact ⟨h.1, h.2.1⟩

/-- C8: on an empty queue, `try_pop()` returns a null shared pointer and
`try_pop(value&)` returns `false` with `value` untouched; in both cases the
queue is unchanged. -/
theorem mvQueue_try_pop_empty (q : mvQueue Nat) (v : Nat) (h : q.elems = []) :
    q.try_pop = (none, q) ∧ q.try_pop_ref v = (false, v, q) := by
  constructor
  · simp [mvQueue.try_pop, h]
  · simp [mvQueue.try_pop_ref, h]

/-- Witness for C8 on the concrete empty queue. -/
theorem mvQueue_try_pop_empty_witness :
    (mvQueue.emptyQ : mvQueue Nat).try_pop = (none, mvQueue.emptyQ)
    ∧ (mvQueue.emptyQ : mvQueue Nat).try_pop_ref 42
        = (false, 42, mvQueue.emptyQ) :=
  mvQueue_try_pop_empty mvQueue.emptyQ 42 rfl

/-! ## Submission entry points: C4, C6 -/

/-- C4: before the system is started, `mvSubmitTask` executes the closure
synchronously on the calling thread (its side effect is in the log when
`mvSubmitTask` returns) and places nothing in the `tasks` queue, while still
returning a valid future; once started, it pushes the closure onto `tasks`
instead of executing it. -/
theorem mvSubmitTask_prestart_sync (label : Nat) (st : RegState) :
    (st.started = false →
      mvSubmitTask label st
        = (FutureState.valid, { st with log := st.log ++ [Event.taskRun label] }))
    ∧ (st.started = true →
      mvSubmitTask label st
        = (FutureState.valid, { st with tasks := st.tasks.push label })) := by
  constructor
  · intro h
    simp [mvSubmitTask, h, runTask]
  · intro h
    simp [mvSubmitTask, h]

/-- Witness for C4: a concrete not-started state executes synchronously and
leaves `tasks` empty; the same state marked started queues instead. -/
theorem mvSubmitTask_prestart_sync_witness :
    mvSubmitTask 7 freshState
      = (FutureState.valid, { freshState with log := [Event.taskRun 7] })
    ∧ mvSubmitTask 7 { freshState with started := true }
      = (FutureState.valid,
          { freshState with started := true, tasks := mvQueue.push mvQueue.emptyQ 7 }) := by
  constructor
  · exact (mvSubmitTask_prestart_sync 7 freshState).1 rfl
  · exact (mvSubmitTask_prestart_sync 7 { freshState with started := true }).2 rfl

/-- C6: when `callCount` exceeds `maxNumberOfCalls`, `mvSubmitCallback`
returns an empty (invalid) future and leaves the whole registry state
unchanged — `callCount` is not incremented and nothing is pushed onto
`calls`. -/
theorem mvSubmitCallback_refusal_frame (f : CallClosure) (st : RegState)
    (h : st.callCount > maxNumberOfCalls) :
    mvSubmitCallback f st = (FutureState.invalid, st) := by
  simp [mvSubmitCallback, h]

/-- Witness for C6 at a concrete over-limit state. -/
theorem mvSubmitCallback_refusal_frame_witness :
    mvSubmitCallback ⟨3, 0, none, none⟩ { freshState with callCount := 51 }
      = (FutureState.invalid, { freshState with callCount := 51 }) :=
  mvSubmitCallback_refusal_frame ⟨3, 0, none, none⟩
    { freshState with callCount := 51 } (by norm_num [freshState, maxNumberOfCalls])

/-! ## Wrapper move and null-callback behaviour: C5, C7 -/

/-- C5: both move forms (`operator=` and the wrapper-stealing constructor)
null the source's callback and userData, and destroying an emptied wrapper
releases nothing (the state, reference counts included, is unchanged). -/
theorem mvCallbackWrapper_move_nulls_source (dest src f : mvCallbackWrapper)
    (st : RegState) :
    (mvCallbackWrapper.moveAssign dest src st).2.1
        = (⟨none, none⟩ : mvCallbackWrapper)
    ∧ (mvCallbackWrapper.stealConstruct f).2 = (⟨none, none⟩ : mvCallbackWrapper)
    ∧ mvCallbackWrapper.destruct ⟨none, none⟩ st = st := by
  refine ⟨rfl, rfl, ?_⟩
  simp [mvCallbackWrapper.destruct, pyXDecref]

/-- C7: a wrapper (or slot) whose callback is null makes `run` and
`run_blocking` no-ops: the state — reference counts, `calls` channel and
event log included — is returned unchanged. -/
theorem null_callback_noop (w : mvCallbackWrapper) (s : mvCallbackPythonSlot)
    (sender : Nat) (appData : Option Nat) (dec : Bool) (st : RegState)
    (hw : w.callback = none) (hs : s.callbackWrapper.callback = none) :
    w.run sender appData dec st = st
    ∧ w.run_blocking sender appData dec st = st
    ∧ s.run sender appData dec st = st
    ∧ s.run_blocking sender appData dec st = st := by
  refine ⟨?_, ?_, ?_, ?_⟩
  · simp [mvCallbackWrapper.run, hw]
  · simp [mvCallbackWrapper.run_blocking, hw]
  · simp [mvCallbackPythonSlot.run, mvCallbackWrapper.run, hs]
  · simp [mvCallbackPythonSlot.run_blocking, mvCallbackWrapper.run_blocking, hs]

/-- Witness for C7 on a concrete null-callback wrapper and slot. -/
theorem null_callback_noop_witness :
    mvCallbackWrapper.run ⟨none, some 5⟩ 1 (some 9) true freshState = freshState
    ∧ mvCallbackPythonSlot.run ⟨"set_exit_callback", ⟨none, none⟩⟩ 1 (some 9) true
        freshState = freshState := by
  have h := null_callback_noop ⟨none, some 5⟩ ⟨"set_exit_callback", ⟨none, none⟩⟩
    1 (some 9) true freshState rfl rfl
  exact ⟨h.1, h.2.2.1⟩

/-! ## Admission control: C1 -/

theorem submitMany_append (as bs : List CallClosure) (st : RegState) :
    submitMany (as ++ bs) st
      = ((submitMany as st).1 ++ (submitMany bs (submitMany as st).2).1,
         (submitMany bs (submitMany as st).2).2) := by
  induction as generalizing st with
  | nil => simp [submitMany]
  | cons a as ih =>
    simp only [List.cons_append, submitMany, List.append_eq]
    rw [ih]

theorem submitMany_all_accepted (fs : List CallClosure) (st : RegState)
    (h0 : 0 ≤ st.callCount)
    (h1 : st.callCount + fs.length ≤ maxNumberOfCalls + 1) :
    submitMany fs st
      = (List.replicate fs.length FutureState.valid,
         { st with callCount := st.callCount + fs.length,
                   calls := ⟨st.calls.elems ++ fs⟩ }) := by
  induction fs generalizing st with
  | nil => simp [submitMany]
  | cons f fs ih =>
    simp only [List.length_cons] at h1
    have hacc : ¬ (st.callCount > maxNumberOfCalls) := by
      simp only [maxNumberOfCalls] at h1 ⊢
      omega
    simp only [submitMany, mvSubmitCallback, if_neg hacc]
    rw [ih { st with callCount := st.callCount + 1, calls := st.calls.push f }
        (show (0 : Int) ≤ st.callCount + 1 by omega)
        (show st.callCount + 1 + ((fs.length : Nat) : Int)
            ≤ maxNumberOfCalls + 1 by
          simp only [maxNumberOfCalls] at h1 ⊢
          omega)]
    have hc : st.callCount + 1 + ((fs.length : Nat) : Int)
        = st.callCount + (((fs.length + 1 : Nat)) : Int) := by
      push_cast
      ring
    simp [mvQueue.push, hc, List.replicate_succ]

theorem submitMany_all_rejected (fs : List CallClosure) (st : RegState)
    (h : st.callCount > maxNumberOfCalls) :
    submitMany fs st = (List.replicate fs.length FutureState.invalid, st) := by
  induction fs with
  | nil => simp [submitMany]
  | cons f fs ih =>
    simp only [submitMany, mvSubmitCallback, if_pos h]
    simp [ih, List.replicate_succ]

theorem submitMany_51_then_reject (as : List CallClosure) (g : CallClosure)
    (st : RegState) (ha : as.length = 51) (h0 : st.callCount = 0) :
    submitMany (as ++ [g]) st
      = (List.replicate 51 FutureState.valid ++ [FutureState.invalid],
         { st with callCount := 51, calls := ⟨st.calls.elems ++ as⟩ }) := by
  have hA := submitMany_all_accepted as st (by omega)
    (by simp [maxNumberOfCalls, h0, ha])
  have hcc : st.callCount + ((as.length : Nat) : Int) = 51 := by
    simp [h0, ha]
  rw [submitMany_append, hA]
  have hB := submitMany_all_rejected [g]
      { st with callCount := st.callCount + ((as.length : Nat) : Int),
                calls := ⟨st.calls.elems ++ as⟩ }
      (by simp only [maxNumberOfCalls, hcc]; omega)
  rw [hB]
  simp [ha, hcc, h0]

/-- C1 (counterexample to the claim as stated): with
`maxNumberOfCalls = 50`, submitting `K+1 = 51` callbacks to a fresh
registry does NOT give 50 accepted and 1 rejected — the admission test
`callCount > maxNumberOfCalls` only starts refusing at the 52nd
submission, so all 51 futures are valid. -/
theorem mvSubmitCallback_admission_counterexample :
    ¬ ((submitMany (List.replicate 51 ⟨0, 0, none, none⟩) freshState).1.count
          FutureState.valid = 50
       ∧ (submitMany (List.replicate 51 ⟨0, 0, none, none⟩) freshState).1.count
          FutureState.invalid = 1) := by
  have h := submitMany_all_accepted (List.replicate 51 ⟨0, 0, none, none⟩)
    freshState (by norm_num [freshState]) (by norm_num [freshState, maxNumberOfCalls])
  rw [h]
  decide

/-- C1 (amended): with `maxNumberOfCalls = K = 50`, submitting `K+2 = 52`
callbacks to a registry with `callCount = 0` gives exactly `K+1 = 51`
accepted — each returning a valid future, incrementing `callCount` (to 51)
and pushing its unit onto `calls` — and exactly 1 rejected with an empty
future; after `run_callbacks` resets `callCount` to 0, the next up-to-51
submissions are all accepted again. -/
theorem mvSubmitCallback_admission_amended (fs gs : List CallClosure)
    (st : RegState) (hfs : fs.length = 52) (hgs : gs.length ≤ 51)
    (h0 : st.callCount = 0) :
    (submitMany fs st).1
        = List.replicate 51 FutureState.valid ++ [FutureState.invalid]
    ∧ (submitMany fs st).2.callCount = 51
    ∧ (submitMany fs st).2.calls.elems = st.calls.elems ++ fs.take 51
    ∧ (mvRunCallbacks (submitMany fs st).2).2.callCount = 0
    ∧ (submitMany gs (mvRunCallbacks (submitMany fs st).2).2).1
        = List.replicate gs.length FutureState.valid := by
  have htake : (fs.take 51).length = 51 := by simp [hfs]
  obtain ⟨g, hg⟩ := List.length_eq_one.mp (show (fs.drop 51).length = 1 by simp [hfs])
  have hsplit : fs.take 51 ++ [g] = fs := by
    rw [← hg]
    exact List.take_append_drop 51 fs
  have hmain := submitMany_51_then_reject (fs.take 51) g st htake h0
  rw [hsplit] at hmain
  rw [hmain]
  have hYcc : (mvRunCallbacks
      { st with callCount := 51,
                calls := ⟨st.calls.elems ++ fs.take 51⟩ }).2.callCount = 0 := by
    simp [mvRunCallbacks]
  refine ⟨rfl, rfl, rfl, hYcc, ?_⟩
  have hacc := submitMany_all_accepted gs
    (mvRunCallbacks
      { st with callCount := 51,
                calls := ⟨st.calls.elems ++ fs.take 51⟩ }).2
    (by rw [hYcc]) (by rw [hYcc]; simp only [maxNumberOfCalls]; omega)
  rw [hacc]

/-- Witness for C1 (amended) on concrete submission batches. -/
theorem mvSubmitCallback_admission_amended_witness :
    (submitMany (List.replicate 52 ⟨0, 0, none, none⟩) freshState).1
        = List.replicate 51 FutureState.valid ++ [FutureState.invalid]
    ∧ (submitMany (List.replicate 3 ⟨1, 1, none, none⟩)
        (mvRunCallbacks
          (submitMany (List.replicate 52 ⟨0, 0, none, none⟩) freshState).2).2).1
        = List.replicate 3 FutureState.valid := by
  have h := mvSubmitCallback_admission_amended
    (List.replicate 52 ⟨0, 0, none, none⟩) (List.replicate 3 ⟨1, 1, none, none⟩)
    freshState (by simp) (by simp) rfl
  exact ⟨h.1, by simpa using h.2.2.2.2⟩

/-! ## Reference balance of the borrowing lifecycle: C3 -/

/-- C3: for a borrowing construction followed by `run()` (with the enqueued
unit then invoked, which requires an admission slot: `callCount` at most
the ceiling) and destruction of the wrapper, the external reference counts
of both the callback object and the userData object return to their
pre-construction values; the unit invoked is exactly the one `run`
enqueued on `calls`. -/
theorem borrow_lifecycle_ref_balance (cb ud sender : Nat) (st : RegState)
    (h : st.callCount ≤ maxNumberOfCalls) :
    (borrowLifecycle cb ud sender st).refs cb = st.refs cb
    ∧ (borrowLifecycle cb ud sender st).refs ud = st.refs ud
    ∧ ((mvCallbackWrapper.construct (some cb) (some ud) true st).1.run sender none
          true (mvCallbackWrapper.construct (some cb) (some ud) true st).2).calls.elems
        = st.calls.elems ++ [⟨cb, sender, none, some ud⟩] := by
  have hna : ¬ (st.callCount > maxNumberOfCalls) := not_lt.mpr h
  refine ⟨?_, ?_, ?_⟩
  · by_cases hcu : cb = ud
    · subst hcu
      simp [borrowLifecycle, mvCallbackWrapper.construct, mvCallbackWrapper.run,
        mvCallbackWrapper.destruct, pyXIncref, pyXDecref, invokeCall,
        mvRunCallback, mvSubmitCallback, mvQueue.push, hna]
    · simp [borrowLifecycle, mvCallbackWrapper.construct, mvCallbackWrapper.run,
        mvCallbackWrapper.destruct, pyXIncref, pyXDecref, invokeCall,
        mvRunCallback, mvSubmitCallback, mvQueue.push, hna, hcu, Ne.symm hcu]
  · by_cases hcu : cb = ud
    · subst hcu
      simp [borrowLifecycle, mvCallbackWrapper.construct, mvCallbackWrapper.run,
        mvCallbackWrapper.destruct, pyXIncref, pyXDecref, invokeCall,
        mvRunCallback, mvSubmitCallback, mvQueue.push, hna]
    · simp [borrowLifecycle, mvCallbackWrapper.construct, mvCallbackWrapper.run,
        mvCallbackWrapper.destruct, pyXIncref, pyXDecref, invokeCall,
        mvRunCallback, mvSubmitCallback, mvQueue.push, hna, hcu, Ne.symm hcu]
  · simp [mvCallbackWrapper.construct, mvCallbackWrapper.run, pyXIncref,
      mvSubmitCallback, mvQueue.push, hna]

/-- Witness for C3 on concrete objects starting from a fresh registry. -/
theorem borrow_lifecycle_ref_balance_witness :
    (borrowLifecycle 1 2 0 freshState).refs 1 = 0
    ∧ (borrowLifecycle 1 2 0 freshState).refs 2 = 0 := by
  have h := borrow_lifecycle_ref_balance 1 2 0 freshState
    (by norm_num [freshState, maxNumberOfCalls])
  refine ⟨?_, ?_⟩
  · rw [h.1]
    rfl
  · rw [h.2.1]
    rfl

/-! ## Frame lemmas for reference counts: C9 -/

theorem pyXIncref_refs_ne (p : Option Nat) (o : Nat) (st : RegState)
    (hp : p ≠ some o) : (pyXIncref p st).refs o = st.refs o := by
  cases p with
  | none => rfl
  | some a =>
    have hoa : o ≠ a := fun e => hp (by rw [e])
    simp [pyXIncref, hoa]

theorem pyXIncref_calls (p : Option Nat) (st : RegState) :
    (pyXIncref p st).calls = st.calls := by
  cases p <;> rfl

theorem pyXDecref_refs_ne (p : Option Nat) (o : Nat) (st : RegState)
    (hp : p ≠ some o) : (pyXDecref p st).refs o = st.refs o := by
  cases p with
  | none => rfl
  | some a =>
    have hoa : o ≠ a := fun e => hp (by rw [e])
    simp [pyXDecref, hoa]

theorem pyXDecref_calls (p : Option Nat) (st : RegState) :
    (pyXDecref p st).calls = st.calls := by
  cases p <;> rfl

theorem invokeCall_refs_ne (c : CallClosure) (o : Nat) (st : RegState)
    (h1 : c.callback ≠ o) (h2 : c.userData ≠ some o) (h3 : c.appData ≠ some o) :
    (invokeCall c st).refs o = st.refs o := by
  unfold invokeCall
  rw [pyXDecref_refs_ne _ _ _ h3, pyXDecref_refs_ne _ _ _ h2,
    pyXDecref_refs_ne _ _ _ (fun e => h1 (Option.some.inj e))]
  rfl

theorem invokeCall_calls (c : CallClosure) (st : RegState) :
    (invokeCall c st).calls = st.calls := by
  unfold invokeCall
  rw [pyXDecref_calls, pyXDecref_calls, pyXDecref_calls]
  rfl

theorem foldl_invoke_refs_ne (cs : List CallClosure) (o : Nat) (st : RegState)
    (h : ∀ c ∈ cs, c.callback ≠ o ∧ c.userData ≠ some o ∧ c.appData ≠ some o) :
    (cs.foldl (fun s c => invokeCall c s) st).refs o = st.refs o := by
  induction cs generalizing st with
  | nil => rfl
  | cons c cs ih =>
    have hc := h c (List.mem_cons_self c cs)
    simp only [List.foldl_cons]
    rw [ih (invokeCall c st) (fun c' hc' => h c' (List.mem_cons_of_mem _ hc'))]
    exact invokeCall_refs_ne c o st hc.1 hc.2.1 hc.2.2

theorem foldl_invoke_calls (cs : List CallClosure) (st : RegState) :
    (cs.foldl (fun s c => invokeCall c s) st).calls = st.calls := by
  induction cs generalizing st with
  | nil => rfl
  | cons c cs ih =>
    simp only [List.foldl_cons]
    rw [ih (invokeCall c st), invokeCall_calls]

theorem callsAvoid_of_calls_eq (o : Nat) (st st' : RegState)
    (h : st'.calls = st.calls) (hst : callsAvoid o st) : callsAvoid o st' :=
  fun c hc => hst c (h ▸ hc)

theorem mvSubmitCallback_refs (f : CallClosure) (st : RegState) :
    (mvSubmitCallback f st).2.refs = st.refs := by
  unfold mvSubmitCallback
  by_cases hc : st.callCount > maxNumberOfCalls <;> simp [hc]

theorem mvSubmitCallback_callsAvoid (o : Nat) (f : CallClosure) (st : RegState)
    (hf : f.callback ≠ o ∧ f.userData ≠ some o ∧ f.appData ≠ some o)
    (hst : callsAvoid o st) : callsAvoid o (mvSubmitCallback f st).2 := by
  unfold mvSubmitCallback
  by_cases hc : st.callCount > maxNumberOfCalls
  · simpa [hc] using hst
  · simp only [hc, if_false, if_neg hc]
    intro c hcmem
    rcases (by simpa [mvQueue.push] using hcmem : c ∈ st.calls.elems ∨ c = f)
      with h | h
    · exact hst c h
    · rw [h]
      exact hf

theorem run_frame (w : mvCallbackWrapper) (o s : Nat) (a : Option Nat) (d : Bool)
    (st : RegState) (hwc : w.callback ≠ some o) (hwu : w.userData ≠ some o)
    (ha : a ≠ some o) (hst : callsAvoid o st) :
    (w.run s a d st).refs o = st.refs o ∧ callsAvoid o (w.run s a d st) := by
  cases hwcb : w.callback with
  | none =>
    constructor
    · simp [mvCallbackWrapper.run, hwcb]
    · simpa [mvCallbackWrapper.run, hwcb] using hst
  | some cb =>
    have hcbne : (some cb : Option Nat) ≠ some o := by
      rw [← hwcb]
      exact hwc
    have hcbo : cb ≠ o := fun e => hcbne (by rw [e])
    have key : ∀ X : RegState, X.refs o = st.refs o → callsAvoid o X →
        (mvSubmitCallback ⟨cb, s, a, w.userData⟩ X).2.refs o = st.refs o
        ∧ callsAvoid o (mvSubmitCallback ⟨cb, s, a, w.userData⟩ X).2 := by
      intro X hXr hXa
      constructor
      · rw [mvSubmitCallback_refs]
        exact hXr
      · exact mvSubmitCallback_callsAvoid o _ X ⟨hcbo, hwu, ha⟩ hXa
    simp only [mvCallbackWrapper.run, hwcb]
    cases d with
    | true =>
      simp only [Bool.not_true, Bool.false_eq_true, if_false]
      exact key _
        (by rw [pyXIncref_refs_ne _ _ _ hwu, pyXIncref_refs_ne _ _ _ hcbne])
        (callsAvoid_of_calls_eq o st _
          (by rw [pyXIncref_calls, pyXIncref_calls]) hst)
    | false =>
      simp only [Bool.not_false, if_true]
      exact key _
        (by rw [pyXIncref_refs_ne _ _ _ ha, pyXIncref_refs_ne _ _ _ hwu,
              pyXIncref_refs_ne _ _ _ hcbne])
        (callsAvoid_of_calls_eq o st _
          (by rw [pyXIncref_calls, pyXIncref_calls, pyXIncref_calls]) hst)

theorem run_blocking_frame (w : mvCallbackWrapper) (o s : Nat) (a : Option Nat)
    (d : Bool) (st : RegState) :
    (w.run_blocking s a d st).refs o = st.refs o
    ∧ (w.run_blocking s a d st).calls = st.calls := by
  cases hwcb : w.callback <;>
    simp [mvCallbackWrapper.run_blocking, hwcb, mvRunCallback]

theorem destruct_frame (w : mvCallbackWrapper) (o : Nat) (st : RegState)
    (hwc : w.callback ≠ some o) (hwu : w.userData ≠ some o) :
    (w.destruct st).refs o = st.refs o ∧ (w.destruct st).calls = st.calls := by
  unfold mvCallbackWrapper.destruct
  constructor
  · rw [pyXDecref_refs_ne _ _ _ hwu, pyXDecref_refs_ne _ _ _ hwc]
  · rw [pyXDecref_calls, pyXDecref_calls]

theorem drain_frame (o : Nat) (st : RegState) (hst : callsAvoid o st) :
    (mvRunCallbacks st).2.refs o = st.refs o
    ∧ callsAvoid o (mvRunCallbacks st).2 := by
  have hr : (st.calls.elems.foldl (fun s c => invokeCall c s)
      { st with calls := mvQueue.emptyQ }).refs o
      = ({ st with calls := mvQueue.emptyQ } : RegState).refs o :=
    foldl_invoke_refs_ne _ _ _ (fun c hc => hst c hc)
  have hc : (st.calls.elems.foldl (fun s c => invokeCall c s)
      { st with calls := mvQueue.emptyQ }).calls = mvQueue.emptyQ :=
    foldl_invoke_calls _ _
  constructor
  · exact hr
  · intro c hcm
    have : (mvRunCallbacks st).2.calls = mvQueue.emptyQ := hc
    rw [this] at hcm
    exact absurd hcm (by simp [mvQueue.emptyQ])

theorem runOps_frame (w : mvCallbackWrapper) (o : Nat) (ops : List WOp)
    (hwc : w.callback ≠ some o) (hwu : w.userData ≠ some o) :
    ∀ st : RegState, callsAvoid o st →
      (∀ op ∈ ops, WOp.avoids o op = true) →
      (runOps w ops st).refs o = st.refs o
      ∧ callsAvoid o (runOps w ops st) := by
  induction ops with
  | nil =>
    intro st hst _
    exact ⟨rfl, hst⟩
  | cons op ops ih =>
    intro st hst hops
    have hop := hops op (List.mem_cons_self op ops)
    have hstep : (wstep w st op).refs o = st.refs o
        ∧ callsAvoid o (wstep w st op) := by
      cases op with
      | run s a d =>
        simp only [WOp.avoids, decide_eq_true_eq] at hop
        exact run_frame w o s a d st hwc hwu hop hst
      | runBlocking s a d =>
        have h := run_blocking_frame w o s a d st
        exact ⟨h.1, callsAvoid_of_calls_eq o st _ h.2 hst⟩
      | drain => exact drain_frame o st hst
      | destruct =>
        have h := destruct_frame w o st hwc hwu
        exact ⟨h.1, callsAvoid_of_calls_eq o st _ h.2 hst⟩
    have htail := ih (wstep w st op) hstep.2
      (fun op' h' => hops op' (List.mem_cons_of_mem _ h'))
    refine ⟨?_, ?_⟩
    · show (runOps w ops (wstep w st op)).refs o = st.refs o
      rw [htail.1, hstep.1]
    · exact htail.2

/-- C9: after a move assignment whose destination previously held references
to object `o` (and whose source does not reference `o`), the assignment
itself returns the state — reference counts included — unchanged (the
destination's old pointers are overwritten without release), and no
subsequent operation of the wrapper (queueing runs, synchronous runs with
`appData` arguments other than `o`, draining the enqueued lambdas,
destruction) ever changes the reference count of `o`. -/
theorem moveAssign_never_releases_old (dest src : mvCallbackWrapper) (o : Nat)
    (st : RegState) (ops : List WOp)
    (hheld : dest.callback = some o ∨ dest.userData = some o)
    (h1 : src.callback ≠ some o) (h2 : src.userData ≠ some o)
    (hcalls : st.calls.elems = [])
    (hops : ∀ op ∈ ops, WOp.avoids o op = true) :
    (mvCallbackWrapper.moveAssign dest src st).2.2 = st
    ∧ (runOps (mvCallbackWrapper.moveAssign dest src st).1 ops st).refs o
        = st.refs o := by
  refine ⟨rfl, ?_⟩
  have hst : callsAvoid o st := by
    intro c hc
    rw [hcalls] at hc
    exact absurd hc (List.not_mem_nil c)
  exact (runOps_frame ⟨src.callback, src.userData⟩ o ops h1 h2 st hst hops).1

/-- Witness for C9: a concrete destination holding object 1, a source
holding objects 3 and 4, and a run–drain–destruct trace; object 1's count
stays 0 throughout. -/
theorem moveAssign_never_releases_old_witness :
    (mvCallbackWrapper.moveAssign ⟨some 1, some 2⟩ ⟨some 3, some 4⟩ freshState).2.2
        = freshState
    ∧ (runOps (mvCallbackWrapper.moveAssign ⟨some 1, some 2⟩ ⟨some 3, some 4⟩
          freshState).1
        [WOp.run 0 none true, WOp.drain, WOp.destruct] freshState).refs 1 = 0 := by
  have h := moveAssign_never_releases_old ⟨some 1, some 2⟩ ⟨some 3, some 4⟩ 1
    freshState [WOp.run 0 none true, WOp.drain, WOp.destruct]
    (Or.inl rfl) (by decide) (by decide) rfl (by decide)
  refine ⟨h.1, ?_⟩
  rw [h.2]
  rfl
